import Mathlib

/-!
Shallow embedding of the Ja7ad/otp one-time-password library (Go) in Lean 4.

Conventions of the embedding:
* Go byte slices are `List Nat` (each entry a byte value below 256).
* Go strings that carry text (suite descriptors) are `List Char`; strings that
  carry bytes (keys, OTP codes, HMAC digests) are `List Nat`.
* Machine integers are `Nat` (or `Int` where Go uses signed types) with
  explicit reductions modulo 2^32 or 2^64 where Go overflow semantics matter.
* A Go function returning `(T, error)` becomes `GoResult T`; a Go runtime
  panic (index out of range, integer divide by zero) is the `GoResult.panic`
  value.
* Secrets are modelled at the byte level, after base-32 decoding: every claim
  under study speaks about raw key bytes or is independent of the textual
  secret encoding, so `DecodeSecret` is not part of the embedding and the
  public entry points take the decoded key bytes directly.
-/

set_option maxRecDepth 100000
set_option maxHeartbeats 4000000

/-- Typed errors of the library (`errs.go`, plus the structured contents of
the `fmt.Errorf` messages of the OCRA suite parser and input validator). -/
inductive Err where
  | unsupportedAlgorithm
  | invalidCodeLength
  | invalidCode
  | invalidSkew
  | suiteInvalidDigits (d : Nat)
  | suiteUnsupportedHash
  | suitePasswordHashMissing
  | suiteInvalidTimeStep (t : Int)
  | suiteChallengeFormatMissing
  | inputCounterLen (got : Nat)
  | inputChallengeShort (minimum got : Nat)
  | inputChallengeLong (got : Nat)
  | inputPasswordMissing
  | inputPasswordLen (want got : Nat)
  | inputSessionLong (got : Nat)
  | inputTimestampLen (got : Nat)
  | parseInvalidSuiteFormat (raw : List Char)
  | parseUnsupportedVersion (seg : List Char)
  | parseUnknownCrypto (raw : List Char)
  | parseInvalidCryptoFormat (rest : List Char)
  | parseUnsupportedHash (tok : List Char)
  | parseInvalidDigitSpec (tok : List Char)
  | parseUnsupportedNumericChallenge (tok : List Char)
  | parseUnknownPasswordHash (tok : List Char)
  | parseInvalidTimeSpec (tok : List Char)
  | parseUnknownToken (tok : List Char)
  deriving DecidableEq, Repr

/-- Outcome of a Go call: a value, a returned `error`, or a runtime panic. -/
inductive GoResult (α : Type) where
  | ok (val : α)
  | err (e : Err)
  | panic
  deriving DecidableEq, Repr

/-- The closed algorithm enumeration (`otp.go`): SHA1, SHA256, SHA512. -/
inductive Algorithm where
  | SHA1
  | SHA256
  | SHA512
  deriving DecidableEq, Repr

/-- Reduce to an unsigned 32-bit word. -/
def w32 (n : Nat) : Nat := n % 4294967296

/-- Reduce to an unsigned 64-bit word. -/
def w64 (n : Nat) : Nat := n % 18446744073709551616

/-- Rotate a 32-bit word left by `s` (0 < s < 32, argument below 2^32). -/
def rotl32 (x s : Nat) : Nat := w32 (x <<< s) ||| (x >>> (32 - s))

/-- Rotate a 64-bit word right by `s` (0 < s < 64, argument below 2^64). -/
def rotr64 (x s : Nat) : Nat := (x >>> s) ||| w64 (x <<< (64 - s))

/-- Rotate a 32-bit word right by `s` (0 < s < 32, argument below 2^32). -/
def rotr32 (x s : Nat) : Nat := (x >>> s) ||| w32 (x <<< (32 - s))

/-- Big-endian byte encoding of `n` on `k` bytes (`binary.BigEndian.PutUint64`
and friends). -/
def bytesBE (k : Nat) (n : Nat) : List Nat :=
  match k with
  | 0 => []
  | j + 1 => bytesBE j (n >>> 8) ++ [n % 256]

/-- Split a byte list into chunks of `sz` bytes; `fuel` bounds the number of
chunks (structural recursion so that the kernel can evaluate it). -/
def chunksOfAux (sz : Nat) : Nat → List Nat → List (List Nat)
  | 0, _ => []
  | _, [] => []
  | fuel + 1, l => l.take sz :: chunksOfAux sz fuel (l.drop sz)

/-- Split a byte list into chunks of `sz` bytes (`sz > 0`). -/
def chunksOf (sz : Nat) (l : List Nat) : List (List Nat) :=
  chunksOfAux sz l.length l

/-- Big-endian 32-bit words from a byte list (groups of 4). -/
def words32 : List Nat → List Nat
  | b0 :: b1 :: b2 :: b3 :: rest =>
      ((b0 <<< 24) ||| (b1 <<< 16) ||| (b2 <<< 8) ||| b3) :: words32 rest
  | _ => []

/-- Big-endian 64-bit words from a byte list (groups of 8). -/
def words64 : List Nat → List Nat
  | b0 :: b1 :: b2 :: b3 :: b4 :: b5 :: b6 :: b7 :: rest =>
      ((b0 <<< 56) ||| (b1 <<< 48) ||| (b2 <<< 40) ||| (b3 <<< 32) |||
       (b4 <<< 24) ||| (b5 <<< 16) ||| (b6 <<< 8) ||| b7) :: words64 rest
  | _ => []

/-- Merkle-Damgard padding: append 0x80, zero bytes, and the bit length on
`lenBytes` bytes, reaching a multiple of `block` bytes. -/
def mdPad (block lenBytes : Nat) (msg : List Nat) : List Nat :=
  let l := msg.length
  let target := block - lenBytes
  let z := (block + target - ((l + 1) % block)) % block
  msg ++ [128] ++ List.replicate z 0 ++ bytesBE lenBytes (8 * l)

/-- A most-recent-first window of 16 schedule words. -/
abbrev W16 := Nat × Nat × Nat × Nat × Nat × Nat × Nat × Nat ×
  Nat × Nat × Nat × Nat × Nat × Nat × Nat × Nat

/-- The most-recent-first window of the first 16 schedule words (the 16
block words in reverse order). -/
def windowOf (ws : List Nat) : W16 :=
  match ws with
  | [w0, w1, w2, w3, w4, w5, w6, w7, w8, w9, w10, w11, w12, w13, w14, w15] =>
    (w15, w14, w13, w12, w11, w10, w9, w8, w7, w6, w5, w4, w3, w2, w1, w0)
  | _ => (0, 0, 0, 0, 0, 0, 0, 0, 0, 0, 0, 0, 0, 0, 0, 0)

/-- SHA-1 message-schedule extension: given the most-recent-first window of
16 words, produce the next `n` schedule words in order. -/
def sha1extend (w : W16) (n : Nat) : List Nat :=
  match n with
  | 0 => []
  | k + 1 =>
    match w with
    | (w1, w2, w3, w4, w5, w6, w7, w8, w9, w10, w11, w12, w13, w14, w15, w16) =>
      let x := (w3 ^^^ w8) ^^^ (w14 ^^^ w16)
      let nw := rotl32 x 1
      nw :: sha1extend
        (nw, w1, w2, w3, w4, w5, w6, w7, w8, w9, w10, w11, w12, w13, w14, w15) k

/-- One SHA-1 round; `i` is the round index. -/
def sha1round (i : Nat) (st : Nat × Nat × Nat × Nat × Nat) (w : Nat) :
    Nat × Nat × Nat × Nat × Nat :=
  match st with
  | (a, b, c, d, e) =>
    let f :=
      if i < 20 then (b &&& c) ||| ((b ^^^ 4294967295) &&& d)
      else if i < 40 then (b ^^^ c) ^^^ d
      else if i < 60 then ((b &&& c) ||| (b &&& d)) ||| (c &&& d)
      else (b ^^^ c) ^^^ d
    let k :=
      if i < 20 then 1518500249
      else if i < 40 then 1859775393
      else if i < 60 then 2400959708
      else 3395469782
    let temp := w32 (rotl32 a 5 + f + e + k + w)
    (temp, a, rotl32 b 30, c, d)

/-- SHA-1 main loop over the schedule words, starting at round `i`. -/
def sha1rounds (i : Nat) (st : Nat × Nat × Nat × Nat × Nat) :
    List Nat → Nat × Nat × Nat × Nat × Nat
  | [] => st
  | w :: ws => sha1rounds (i + 1) (sha1round i st w) ws

/-- SHA-1 compression of one 64-byte block into the running state. -/
def sha1block (h : Nat × Nat × Nat × Nat × Nat) (block : List Nat) :
    Nat × Nat × Nat × Nat × Nat :=
  let ws16 := words32 block
  let ws := ws16 ++ sha1extend (windowOf ws16) 64
  match h, sha1rounds 0 h ws with
  | (h0, h1, h2, h3, h4), (a, b, c, d, e) =>
    (w32 (h0 + a), w32 (h1 + b), w32 (h2 + c), w32 (h3 + d), w32 (h4 + e))

/-- SHA-1 of a byte list, as a 20-byte digest. -/
def sha1 (msg : List Nat) : List Nat :=
  let blocks := chunksOf 64 (mdPad 64 8 msg)
  match blocks.foldl sha1block
      (1732584193, 4023233417, 2562383102, 271733878, 3285377520) with
  | (h0, h1, h2, h3, h4) =>
    bytesBE 4 h0 ++ bytesBE 4 h1 ++ bytesBE 4 h2 ++ bytesBE 4 h3 ++ bytesBE 4 h4

/-- SHA-256 round constants. -/
def sha256k : List Nat :=
  [1116352408, 1899447441, 3049323471, 3921009573, 961987163, 1508970993,
   2453635748, 2870763221, 3624381080, 310598401, 607225278, 1426881987,
   1925078388, 2162078206, 2614888103, 3248222580, 3835390401, 4022224774,
   264347078, 604807628, 770255983, 1249150122, 1555081692, 1996064986,
   2554220882, 2821834349, 2952996808, 3210313671, 3336571891, 3584528711,
   113926993, 338241895, 666307205, 773529912, 1294757372, 1396182291,
   1695183700, 1986661051, 2177026350, 2456956037, 2730485921, 2820302411,
   3259730800, 3345764771, 3516065817, 3600352804, 4094571909, 275423344,
   430227734, 506948616, 659060556, 883997877, 958139571, 1322822218,
   1537002063, 1747873779, 1955562222, 2024104815, 2227730452, 2361852424,
   2428436474, 2756734187, 3204031479, 3329325298]

/-- SHA-256 message-schedule extension (most-recent-first window of 16). -/
def sha256extend (w : W16) (n : Nat) : List Nat :=
  match n with
  | 0 => []
  | k + 1 =>
    match w with
    | (w1, w2, w3, w4, w5, w6, w7, w8, w9, w10, w11, w12, w13, w14, w15, w16) =>
      let s0 := (rotr32 w15 7 ^^^ rotr32 w15 18) ^^^ (w15 >>> 3)
      let s1 := (rotr32 w2 17 ^^^ rotr32 w2 19) ^^^ (w2 >>> 10)
      let nw := w32 (w16 + s0 + w7 + s1)
      nw :: sha256extend
        (nw, w1, w2, w3, w4, w5, w6, w7, w8, w9, w10, w11, w12, w13, w14, w15) k

/-- An 8-word hash state. -/
abbrev St8 := Nat × Nat × Nat × Nat × Nat × Nat × Nat × Nat

/-- One SHA-256 round with constant `kc` and schedule word `w`. -/
def sha256round (st : St8) (kw : Nat × Nat) : St8 :=
  match st, kw with
  | (a, b, c, d, e, f, g, h), (kc, w) =>
    let s1 := (rotr32 e 6 ^^^ rotr32 e 11) ^^^ rotr32 e 25
    let ch := (e &&& f) ^^^ ((e ^^^ 4294967295) &&& g)
    let t1 := w32 (h + s1 + ch + kc + w)
    let s0 := (rotr32 a 2 ^^^ rotr32 a 13) ^^^ rotr32 a 22
    let mj := ((a &&& b) ^^^ (a &&& c)) ^^^ (b &&& c)
    let t2 := w32 (s0 + mj)
    (w32 (t1 + t2), a, b, c, w32 (d + t1), e, f, g)

/-- SHA-256 compression of one 64-byte block. -/
def sha256block (h : St8) (block : List Nat) : St8 :=
  let ws16 := words32 block
  let ws := ws16 ++ sha256extend (windowOf ws16) 48
  match h, (sha256k.zip ws).foldl sha256round h with
  | (h0, h1, h2, h3, h4, h5, h6, h7), (a, b, c, d, e, f, g, hh) =>
    (w32 (h0 + a), w32 (h1 + b), w32 (h2 + c), w32 (h3 + d),
     w32 (h4 + e), w32 (h5 + f), w32 (h6 + g), w32 (h7 + hh))

/-- SHA-256 of a byte list, as a 32-byte digest. -/
def sha256 (msg : List Nat) : List Nat :=
  let blocks := chunksOf 64 (mdPad 64 8 msg)
  match blocks.foldl sha256block
      (1779033703, 3144134277, 1013904242, 2773480762,
       1359893119, 2600822924, 528734635, 1541459225) with
  | (h0, h1, h2, h3, h4, h5, h6, h7) =>
    bytesBE 4 h0 ++ bytesBE 4 h1 ++ bytesBE 4 h2 ++ bytesBE 4 h3 ++
    bytesBE 4 h4 ++ bytesBE 4 h5 ++ bytesBE 4 h6 ++ bytesBE 4 h7

/-- SHA-512 round constants. -/
def sha512k : List Nat :=
  [4794697086780616226, 8158064640168781261, 13096744586834688815, 16840607885511220156,
   4131703408338449720, 6480981068601479193, 10538285296894168987, 12329834152419229976,
   15566598209576043074, 1334009975649890238, 2608012711638119052, 6128411473006802146,
   8268148722764581231, 9286055187155687089, 11230858885718282805, 13951009754708518548,
   16472876342353939154, 17275323862435702243, 1135362057144423861, 2597628984639134821,
   3308224258029322869, 5365058923640841347, 6679025012923562964, 8573033837759648693,
   10970295158949994411, 12119686244451234320, 12683024718118986047, 13788192230050041572,
   14330467153632333762, 15395433587784984357, 489312712824947311, 1452737877330783856,
   2861767655752347644, 3322285676063803686, 5560940570517711597, 5996557281743188959,
   7280758554555802590, 8532644243296465576, 9350256976987008742, 10552545826968843579,
   11727347734174303076, 12113106623233404929, 14000437183269869457, 14369950271660146224,
   15101387698204529176, 15463397548674623760, 17586052441742319658, 1182934255886127544,
   1847814050463011016, 2177327727835720531, 2830643537854262169, 3796741975233480872,
   4115178125766777443, 5681478168544905931, 6601373596472566643, 7507060721942968483,
   8399075790359081724, 8693463985226723168, 9568029438360202098, 10144078919501101548,
   10430055236837252648, 11840083180663258601, 13761210420658862357, 14299343276471374635,
   14566680578165727644, 15097957966210449927, 16922976911328602910, 17689382322260857208,
   500013540394364858, 748580250866718886, 1242879168328830382, 1977374033974150939,
   2944078676154940804, 3659926193048069267, 4368137639120453308, 4836135668995329356,
   5532061633213252278, 6448918945643986474, 6902733635092675308, 7801388544844847127]

/-- SHA-512 message-schedule extension (most-recent-first window of 16). -/
def sha512extend (w : W16) (n : Nat) : List Nat :=
  match n with
  | 0 => []
  | k + 1 =>
    match w with
    | (w1, w2, w3, w4, w5, w6, w7, w8, w9, w10, w11, w12, w13, w14, w15, w16) =>
      let s0 := (rotr64 w15 1 ^^^ rotr64 w15 8) ^^^ (w15 >>> 7)
      let s1 := (rotr64 w2 19 ^^^ rotr64 w2 61) ^^^ (w2 >>> 6)
      let nw := w64 (w16 + s0 + w7 + s1)
      nw :: sha512extend
        (nw, w1, w2, w3, w4, w5, w6, w7, w8, w9, w10, w11, w12, w13, w14, w15) k

/-- One SHA-512 round with constant `kc` and schedule word `w`. -/
def sha512round (st : St8) (kw : Nat × Nat) : St8 :=
  match st, kw with
  | (a, b, c, d, e, f, g, h), (kc, w) =>
    let s1 := (rotr64 e 14 ^^^ rotr64 e 18) ^^^ rotr64 e 41
    let ch := (e &&& f) ^^^ ((e ^^^ 18446744073709551615) &&& g)
    let t1 := w64 (h + s1 + ch + kc + w)
    let s0 := (rotr64 a 28 ^^^ rotr64 a 34) ^^^ rotr64 a 39
    let mj := ((a &&& b) ^^^ (a &&& c)) ^^^ (b &&& c)
    let t2 := w64 (s0 + mj)
    (w64 (t1 + t2), a, b, c, w64 (d + t1), e, f, g)

/-- SHA-512 compression of one 128-byte block. -/
def sha512block (h : St8) (block : List Nat) : St8 :=
  let ws16 := words64 block
  let ws := ws16 ++ sha512extend (windowOf ws16) 64
  match h, (sha512k.zip ws).foldl sha512round h with
  | (h0, h1, h2, h3, h4, h5, h6, h7), (a, b, c, d, e, f, g, hh) =>
    (w64 (h0 + a), w64 (h1 + b), w64 (h2 + c), w64 (h3 + d),
     w64 (h4 + e), w64 (h5 + f), w64 (h6 + g), w64 (h7 + hh))

/-- SHA-512 of a byte list, as a 64-byte digest. -/
def sha512 (msg : List Nat) : List Nat :=
  let blocks := chunksOf 128 (mdPad 128 16 msg)
  match blocks.foldl sha512block
      (7640891576956012808, 13503953896175478587, 4354685564936845355,
       11912009170470909681, 5840696475078001361, 11170449401992604703,
       2270897969802886507, 6620516959819538809) with
  | (h0, h1, h2, h3, h4, h5, h6, h7) =>
    bytesBE 8 h0 ++ bytesBE 8 h1 ++ bytesBE 8 h2 ++ bytesBE 8 h3 ++
    bytesBE 8 h4 ++ bytesBE 8 h5 ++ bytesBE 8 h6 ++ bytesBE 8 h7

/-- HMAC (RFC 2104) for a hash with block size `block` bytes. -/
def hmac (hash : List Nat → List Nat) (block : Nat) (key msg : List Nat) :
    List Nat :=
  let k := if key.length > block then hash key else key
  let k0 := k ++ List.replicate (block - k.length) 0
  hash ((k0.map (fun b => b ^^^ 92)) ++ hash ((k0.map (fun b => b ^^^ 54)) ++ msg))

/-- The per-algorithm HMAC engine of the keyed-hash pool (`hmacPools`):
HMAC-SHA1, HMAC-SHA256 or HMAC-SHA512 of `msg` under `key`. -/
def hmacSum (algo : Algorithm) (key msg : List Nat) : List Nat :=
  match algo with
  | .SHA1 => hmac sha1 64 key msg
  | .SHA256 => hmac sha256 64 key msg
  | .SHA512 => hmac sha512 128 key msg

/-- The power-of-ten modulus table (`decoder.go` / the derive file): note the
final entry for index 10 repeats 10^9 instead of 10^10. -/
def mod10Table : List Nat :=
  [0, 10, 100, 1000, 10000, 100000, 1000000,
   10000000, 100000000, 1000000000, 1000000000]

/-- Dynamic truncation (`truncate` in `decoder.go`): offset from the last
digest byte, 4 bytes big-endian, sign bit cleared, reduced modulo `mod` in
64-bit arithmetic. `none` models the Go panic on `mod = 0` (integer divide
by zero). -/
def truncate (sum : List Nat) (mod : Nat) : Option Nat :=
  let offset := sum.getD (sum.length - 1) 0 &&& 15
  let bin := (sum.getD offset 0 <<< 24) ||| (sum.getD (offset + 1) 0 <<< 16) |||
             (sum.getD (offset + 2) 0 <<< 8) ||| sum.getD (offset + 3) 0
  let code := bin &&& 2147483647
  if mod = 0 then none else some (code % mod)

/-- Zero-padded decimal rendering used for codes of at most 8 digits
(`shortDigit`); keeps the lowest `digits` decimal digits of `otp`, which the
callers guarantee already fits. Bytes are ASCII. -/
def shortDigit (otp : Nat) (digits : Nat) : List Nat :=
  match digits with
  | 0 => []
  | d + 1 => shortDigit (otp / 10) d ++ [48 + otp % 10]

/-- Zero-padded decimal rendering for codes of more than 8 digits
(`longDigit`); same digit-by-digit loop as `shortDigit`. -/
def longDigit (otp : Nat) (digits : Nat) : List Nat :=
  match digits with
  | 0 => []
  | d + 1 => longDigit (otp / 10) d ++ [48 + otp % 10]

/-- Zero-padded decimal rendering used by the OCRA path (`formatDecimal`). -/
def formatDecimal (val : Nat) (digits : Nat) : List Nat :=
  match digits with
  | 0 => []
  | d + 1 => formatDecimal (val / 10) d ++ [48 + val % 10]

/-- Right-pad (or truncate) a byte slice to exactly `length` bytes
(`padBytes`). -/
def padBytes (input : List Nat) (length : Nat) : List Nat :=
  if input.length ≥ length then input.take length
  else input ++ List.replicate (length - input.length) 0

/-- HOTP derivation (`deriveRFC4226`): HMAC over the 8-byte big-endian
counter, dynamic truncation with modulus `mod10[digits]`, decimal rendering.
`panic` arises exactly where Go panics: `mod10[digits]` is out of range for
`digits > 10`, and the reduction modulo `mod10[0] = 0` divides by zero. The
algorithm range check of the source (`int(algo) >= len(hmacPools)`) is
vacuous for the closed `Algorithm` enumeration. -/
def deriveRFC4226 (secret : List Nat) (counter digits : Nat) (algo : Algorithm) :
    GoResult (List Nat) :=
  let sum := hmacSum algo secret (bytesBE 8 (w64 counter))
  match mod10Table.get? digits with
  | none => .panic
  | some mod =>
    match truncate sum mod with
    | none => .panic
    | some otp =>
      if digits ≤ 8 then .ok (shortDigit otp digits) else .ok (longDigit otp digits)

/-- Single-candidate validation (`validateOTP` / the body of `validate`):
length check first, then derive and compare (the constant-time byte
comparison is equality of byte lists). -/
def validateOTP (code secret : List Nat) (counter digits : Nat)
    (algo : Algorithm) : GoResult Bool :=
  if code.length ≠ digits then .err .invalidCodeLength
  else
    match deriveRFC4226 secret counter digits algo with
    | .panic => .panic
    | .err e => .err e
    | .ok expected => if code = expected then .ok true else .err .invalidCode

/-- HOTP/TOTP configuration (`Param` in `otp.go`); `digits` is the `Digits`
byte, `period` and `skew` the unsigned fields. -/
structure Param where
  digits : Nat
  period : Nat
  skew : Nat
  algorithm : Algorithm
  deriving DecidableEq, Repr

/-- Default HOTP parameters (`hotp.go`): 6 digits, SHA1, period 0, skew 2. -/
def DefaultHOTPParam : Param := ⟨6, 0, 2, .SHA1⟩

/-- Default TOTP parameters (`totp.go`): 6 digits, SHA1, period 30, skew 0. -/
def DefaultTOTPParam : Param := ⟨6, 30, 0, .SHA1⟩

/-- Reinterpret an unsigned 64-bit value as Go `int64`. -/
def toInt64 (n : Nat) : Int :=
  if n < 9223372036854775808 then (n : Int) else (n : Int) - 18446744073709551616

/-- Candidate counter of the HOTP validation window (`hotp.go` lines
164-173): a negative offset is skipped when `int64(counter) < -i`, otherwise
subtracted; a non-negative offset is added with 64-bit wrap-around. -/
def hotpCandidate (counter : Nat) (i : Int) : Option Nat :=
  if i < 0 then
    if toInt64 counter < -i then none
    else some (counter - (-i).toNat)
  else some (w64 (counter + i.toNat))

/-- The window-scan loop of `ValidateHOTP`: first successful candidate wins,
candidate errors are swallowed, panics propagate. -/
def hotpScan (code secret : List Nat) (counter digits : Nat) (algo : Algorithm) :
    List Int → GoResult Bool
  | [] => .err .invalidCode
  | i :: rest =>
    match hotpCandidate counter i with
    | none => hotpScan code secret counter digits algo rest
    | some c =>
      match validateOTP code secret c digits algo with
      | .panic => .panic
      | .ok true => .ok true
      | _ => hotpScan code secret counter digits algo rest

/-- The ascending integer list starting at `lo` with `n` elements. -/
def intRangeAux (lo : Int) : Nat → List Int
  | 0 => []
  | n + 1 => lo :: intRangeAux (lo + 1) n

/-- The inclusive integer range `[lo, hi]` as an ascending list, as iterated
by the validation loops. -/
def intRangeIncl (lo hi : Int) : List Int :=
  intRangeAux lo (hi - lo + 1).toNat

/-- HOTP validation (`ValidateHOTP`, `hotp.go` lines 148-182): nil-parameter
fallback to `DefaultHOTPParam`, up-front skew bound, then the window scan.
The secret is the already-decoded key bytes. -/
def ValidateHOTP (secret code : List Nat) (counter : Nat)
    (param : Option Param) : GoResult Bool :=
  let p := param.getD DefaultHOTPParam
  if p.skew > 10 then .err .invalidSkew
  else hotpScan code secret counter p.digits p.algorithm
    (intRangeIncl (-(p.skew : Int)) (p.skew : Int))

/-- HOTP generation (`GenerateHOTP`): nil-parameter fallback, then
derivation over the decoded key bytes. -/
def GenerateHOTP (secret : List Nat) (counter : Nat) (param : Option Param) :
    GoResult (List Nat) :=
  let p := param.getD DefaultHOTPParam
  deriveRFC4226 secret counter p.digits p.algorithm

/-- Time-to-counter mapping (`TimeCounterFunc`): `uint64(t.Unix()) /
uint64(period)`; `none` models the division-by-zero panic for `period = 0`.
The time is the Unix-seconds value (signed, wrapped into uint64). -/
def timeCounterFunc (t : Int) (period : Nat) : Option Nat :=
  if period = 0 then none
  else some ((t % 18446744073709551616).toNat / period)

/-- TOTP generation (`GenerateTOTP` in `totp.go` / part_009): nil-parameter
fallback to `DefaultTOTPParam`; the period is used as given (no zero
default), so `period = 0` panics inside the time-counter mapping. -/
def GenerateTOTP (secret : List Nat) (t : Int) (param : Option Param) :
    GoResult (List Nat) :=
  let p := param.getD DefaultTOTPParam
  match timeCounterFunc t p.period with
  | none => .panic
  | some counter => deriveRFC4226 secret counter p.digits p.algorithm

/-- The window-scan loop of `ValidateTOTP`: candidates are
`counter + uint64(i)` with 64-bit wrap-around and no underflow guard. -/
def totpScan (code secret : List Nat) (counter digits : Nat) (algo : Algorithm) :
    List Int → GoResult Bool
  | [] => .err .invalidCode
  | i :: rest =>
    let c := (((counter : Int) + i) % 18446744073709551616).toNat
    match validateOTP code secret c digits algo with
    | .panic => .panic
    | .ok true => .ok true
    | _ => totpScan code secret counter digits algo rest

/-- TOTP validation (`ValidateTOTP`): nil-parameter fallback, zero period
defaulted to 30, then the window scan over the time-step counter. There is
no bound check on the skew. -/
def ValidateTOTP (secret code : List Nat) (t : Int) (param : Option Param) :
    GoResult Bool :=
  let p := param.getD DefaultTOTPParam
  let period := if p.period = 0 then 30 else p.period
  match timeCounterFunc t period with
  | none => .panic
  | some counter =>
    totpScan code secret counter p.digits p.algorithm
      (intRangeIncl (-(toInt64 p.skew)) (toInt64 p.skew))

/-- ASCII upper-casing of one character (`strings.ToUpper` on the ASCII
subset, which is all the suite grammar uses). -/
def toUpperChar (c : Char) : Char :=
  if 'a' ≤ c ∧ c ≤ 'z' then Char.ofNat (c.toNat - 32) else c

/-- Value of a non-empty all-digit decimal string, with accumulator. -/
def decValAux (acc : Nat) : List Char → Option Nat
  | [] => some acc
  | c :: r =>
    if '0' ≤ c ∧ c ≤ '9' then decValAux (acc * 10 + (c.toNat - 48)) r else none

/-- Value of a decimal digit string; `none` when empty or non-digit. -/
def decStrVal (s : List Char) : Option Nat :=
  match s with
  | [] => none
  | _ => decValAux 0 s

/-- Hex value of one character. -/
def hexDigitVal (c : Char) : Option Nat :=
  if '0' ≤ c ∧ c ≤ '9' then some (c.toNat - 48)
  else if 'A' ≤ c ∧ c ≤ 'F' then some (c.toNat - 55)
  else if 'a' ≤ c ∧ c ≤ 'f' then some (c.toNat - 87)
  else none

/-- Decode a hex string into bytes; `none` on odd length or bad digits. -/
def hexDecode : List Char → Option (List Nat)
  | [] => some []
  | c1 :: c2 :: rest =>
    match hexDigitVal c1, hexDigitVal c2, hexDecode rest with
    | some h, some l, some bs => some ((16 * h + l) :: bs)
    | _, _, _ => none
  | [_] => none

/-- RFC 6287 decimal-challenge encoding (`ParseDecimalChallengeRFC6287` in
`utils.go`): parse the decimal value, render it in hexadecimal (upper case),
right-pad the hex text with the zero character to 256 characters, decode to
128 bytes. The model covers non-negative decimal strings, which is what the
big-integer parse accepts for RFC challenges. -/
def ParseDecimalChallengeRFC6287 (s : List Char) : Option (List Nat) :=
  match decStrVal s with
  | none => none
  | some v =>
    let hx := (Nat.toDigits 16 v).map toUpperChar
    let padded := hx ++ List.replicate (256 - hx.length) '0'
    hexDecode padded

/-- OCRA challenge formats (`utils.go`). -/
inductive ChallengeFormat where
  | challengeNone
  | numeric08
  | numeric10
  | alpha08
  | alpha10
  | hex08
  | hex10
  deriving DecidableEq, Repr

/-- OCRA password-hash kinds (`utils.go`). -/
inductive PasswordHashAlgorithm where
  | passwordNone
  | psha1
  | psha256
  | psha512
  deriving DecidableEq, Repr

/-- OCRA suite configuration (`SuiteConfig`); `digits` is the Go `int`
field (never negative on any constructed value under study), `timeStep`
keeps the signed Go `int`. -/
structure SuiteConfig where
  raw : List Char
  hash : Algorithm
  digits : Nat
  challenge : ChallengeFormat
  includeCounter : Bool
  includeChallenge : Bool
  includePassword : Bool
  includeSession : Bool
  includeTimestamp : Bool
  passwordHash : PasswordHashAlgorithm
  timeStep : Int
  deriving DecidableEq, Repr

/-- Suite-level validation (`SuiteConfig.Validate`): `none` means valid. The
hash-membership check of the source is vacuous for the closed `Algorithm`
enumeration. -/
def suiteValidate (cfg : SuiteConfig) : Option Err :=
  if cfg.digits < 4 ∨ cfg.digits > 10 then some (.suiteInvalidDigits cfg.digits)
  else if cfg.includePassword ∧ cfg.passwordHash = .passwordNone then
    some .suitePasswordHashMissing
  else if cfg.includeTimestamp ∧ cfg.timeStep ≤ 0 then
    some (.suiteInvalidTimeStep cfg.timeStep)
  else if cfg.includeChallenge ∧ cfg.challenge = .challengeNone then
    some .suiteChallengeFormatMissing
  else none

/-- Minimum challenge length per format (`challengeLength`). -/
def challengeLength (format : ChallengeFormat) : Nat :=
  match format with
  | .numeric08 | .alpha08 | .hex08 => 8
  | .numeric10 | .alpha10 | .hex10 => 10
  | .challengeNone => 0

/-- Caller-supplied OCRA input fields (`OCRAInput`). -/
structure OCRAInput where
  counter : List Nat
  challenge : List Nat
  password : List Nat
  sessionInfo : List Nat
  timestamp : List Nat
  deriving DecidableEq, Repr

/-- The all-empty `OCRAInput`. -/
def emptyOCRAInput : OCRAInput := ⟨[], [], [], [], []⟩

/-- Input validation against a suite (`OCRAInput.Validate` in `errs.go`):
sequential checks, `none` means valid. -/
def inputValidate (inp : OCRAInput) (cfg : SuiteConfig) : Option Err :=
  if cfg.includeCounter ∧ inp.counter.length ≠ 8 then
    some (.inputCounterLen inp.counter.length)
  else if cfg.includeChallenge ∧
      inp.challenge.length < challengeLength cfg.challenge then
    some (.inputChallengeShort (challengeLength cfg.challenge) inp.challenge.length)
  else if cfg.includeChallenge ∧ inp.challenge.length > 128 then
    some (.inputChallengeLong inp.challenge.length)
  else if cfg.includePassword ∧ inp.password.length = 0 then
    some .inputPasswordMissing
  else if cfg.includePassword ∧ cfg.passwordHash = .psha1 ∧
      inp.password.length ≠ 20 then
    some (.inputPasswordLen 20 inp.password.length)
  else if cfg.includePassword ∧ cfg.passwordHash = .psha256 ∧
      inp.password.length ≠ 32 then
    some (.inputPasswordLen 32 inp.password.length)
  else if cfg.includePassword ∧ cfg.passwordHash = .psha512 ∧
      inp.password.length ≠ 64 then
    some (.inputPasswordLen 64 inp.password.length)
  else if cfg.includeSession ∧ inp.sessionInfo.length > 128 then
    some (.inputSessionLong inp.sessionInfo.length)
  else if cfg.includeTimestamp ∧ inp.timestamp.length ≠ 8 then
    some (.inputTimestampLen inp.timestamp.length)
  else none

/-- OCRA message bytes (`deriveRFC6287` steps after validation): ASCII raw
suite string, one NUL separator, then the included fields in fixed order. -/
def ocraMessage (cfg : SuiteConfig) (inp : OCRAInput) : List Nat :=
  cfg.raw.map Char.toNat ++ [0] ++
  (if cfg.includeCounter then padBytes inp.counter 8 else []) ++
  (if cfg.includeChallenge then padBytes inp.challenge 128 else []) ++
  (if cfg.includePassword then inp.password else []) ++
  (if cfg.includeSession then padBytes inp.sessionInfo 128 else []) ++
  (if cfg.includeTimestamp then padBytes inp.timestamp 8 else [])

/-- OCRA derivation (`deriveRFC6287`): suite validation, input validation,
message construction, keyed hash, truncation with the `mod10` modulus of the
digit count, decimal rendering. -/
def deriveRFC6287 (secret : List Nat) (cfg : SuiteConfig) (inp : OCRAInput) :
    GoResult (List Nat) :=
  match suiteValidate cfg with
  | some e => .err e
  | none =>
    match inputValidate inp cfg with
    | some e => .err e
    | none =>
      let sum := hmacSum cfg.hash secret (ocraMessage cfg inp)
      match mod10Table.get? cfg.digits with
      | none => .panic
      | some mod =>
        match truncate sum mod with
        | none => .panic
        | some otp => .ok (formatDecimal otp cfg.digits)

/-- The shared code-validation wrapper (`validate` in the validation file):
length check before the derivation closure runs, then constant-time compare. -/
def validate (code : List Nat) (expectedLength : Nat)
    (derived : GoResult (List Nat)) : GoResult Bool :=
  if code.length ≠ expectedLength then .err .invalidCodeLength
  else
    match derived with
    | .panic => .panic
    | .err e => .err e
    | .ok expected => if code = expected then .ok true else .err .invalidCode

/-- OCRA code validation (`validateRFC6287`). -/
def validateRFC6287 (code secret : List Nat) (cfg : SuiteConfig)
    (inp : OCRAInput) : GoResult Bool :=
  validate code cfg.digits (deriveRFC6287 secret cfg inp)

/-- Public OCRA validation (`ValidateOCRA`), over decoded key bytes. -/
def ValidateOCRA (secret code : List Nat) (cfg : SuiteConfig)
    (inp : OCRAInput) : GoResult Bool :=
  validateRFC6287 code secret cfg inp

/-- Public OCRA generation (`GenerateOCRA`), over decoded key bytes. -/
def GenerateOCRA (secret : List Nat) (cfg : SuiteConfig) (inp : OCRAInput) :
    GoResult (List Nat) :=
  deriveRFC6287 secret cfg inp

/-- The registry entry for the suite of SHA1 with 6 digits and an 8-digit
numeric challenge, with the `raw` field set as `NewRawSuite` does. -/
def cfgQN08 : SuiteConfig :=
  ⟨"OCRA-1:HOTP-SHA1-6:QN08".data, .SHA1, 6, .numeric08, false, true,
   false, false, false, .passwordNone, 0⟩

/-- The 20-byte RFC 4226 / RFC 6287 test key: the ASCII bytes of the string
of the digits 1 to 0 repeated twice (hex 3132...3930). -/
def rfcKey20 : List Nat :=
  [49, 50, 51, 52, 53, 54, 55, 56, 57, 48,
   49, 50, 51, 52, 53, 54, 55, 56, 57, 48]

/-- Instrumented variant of `deriveRFC4226` that also reports how many HMAC
digests the call computes (the source computes the digest before the modulus
lookup, hence one in every branch past the argument checks). -/
def deriveRFC4226instr (secret : List Nat) (counter digits : Nat)
    (algo : Algorithm) : GoResult (List Nat) × Nat :=
  (deriveRFC4226 secret counter digits algo, 1)

/-- Instrumented variant of `validateOTP` counting HMAC computations: the
length check precedes the derivation, so a mismatched length costs none. -/
def validateOTPinstr (code secret : List Nat) (counter digits : Nat)
    (algo : Algorithm) : GoResult Bool × Nat :=
  if code.length ≠ digits then (.err .invalidCodeLength, 0)
  else
    match deriveRFC4226instr secret counter digits algo with
    | (.panic, n) => (.panic, n)
    | (.err e, n) => (.err e, n)
    | (.ok expected, n) =>
      (if code = expected then .ok true else .err .invalidCode, n)

/-- Instrumented window scan of `ValidateHOTP`. -/
def hotpScanInstr (code secret : List Nat) (counter digits : Nat)
    (algo : Algorithm) : List Int → GoResult Bool × Nat
  | [] => (.err .invalidCode, 0)
  | i :: rest =>
    match hotpCandidate counter i with
    | none => hotpScanInstr code secret counter digits algo rest
    | some c =>
      match validateOTPinstr code secret c digits algo with
      | (.panic, n) => (.panic, n)
      | (.ok true, n) => (.ok true, n)
      | (_, n) =>
        let r := hotpScanInstr code secret counter digits algo rest
        (r.1, n + r.2)

/-- Instrumented `ValidateHOTP` reporting the number of HMAC computations. -/
def ValidateHOTPinstr (secret code : List Nat) (counter : Nat)
    (param : Option Param) : GoResult Bool × Nat :=
  let p := param.getD DefaultHOTPParam
  if p.skew > 10 then (.err .invalidSkew, 0)
  else hotpScanInstr code secret counter p.digits p.algorithm
    (intRangeIncl (-(p.skew : Int)) (p.skew : Int))

/-- Instrumented window scan of `ValidateTOTP`. -/
def totpScanInstr (code secret : List Nat) (counter digits : Nat)
    (algo : Algorithm) : List Int → GoResult Bool × Nat
  | [] => (.err .invalidCode, 0)
  | i :: rest =>
    let c := (((counter : Int) + i) % 18446744073709551616).toNat
    match validateOTPinstr code secret c digits algo with
    | (.panic, n) => (.panic, n)
    | (.ok true, n) => (.ok true, n)
    | (_, n) =>
      let r := totpScanInstr code secret counter digits algo rest
      (r.1, n + r.2)

/-- Instrumented `ValidateTOTP` reporting the number of HMAC computations. -/
def ValidateTOTPinstr (secret code : List Nat) (t : Int)
    (param : Option Param) : GoResult Bool × Nat :=
  let p := param.getD DefaultTOTPParam
  let period := if p.period = 0 then 30 else p.period
  match timeCounterFunc t period with
  | none => (.panic, 0)
  | some counter =>
    totpScanInstr code secret counter p.digits p.algorithm
      (intRangeIncl (-(toInt64 p.skew)) (toInt64 p.skew))

/-- Instrumented `deriveRFC6287`: the digest is computed only after both
validations pass. -/
def deriveRFC6287instr (secret : List Nat) (cfg : SuiteConfig)
    (inp : OCRAInput) : GoResult (List Nat) × Nat :=
  match suiteValidate cfg with
  | some e => (.err e, 0)
  | none =>
    match inputValidate inp cfg with
    | some e => (.err e, 0)
    | none => (deriveRFC6287 secret cfg inp, 1)

/-- Instrumented `ValidateOCRA` reporting the number of HMAC computations. -/
def ValidateOCRAinstr (secret code : List Nat) (cfg : SuiteConfig)
    (inp : OCRAInput) : GoResult Bool × Nat :=
  if code.length ≠ cfg.digits then (.err .invalidCodeLength, 0)
  else
    match deriveRFC6287instr secret cfg inp with
    | (.panic, n) => (.panic, n)
    | (.err e, n) => (.err e, n)
    | (.ok expected, n) =>
      (if code = expected then .ok true else .err .invalidCode, n)

theorem truncate_pos (sum : List Nat) (m : Nat) (hm : 0 < m) :
    ∃ v, truncate sum m = some v := by
  simp only [truncate]
  rw [if_neg (Nat.pos_iff_ne_zero.mp hm)]
  exact ⟨_, rfl⟩

/-- Expected password length per declared hash kind (20, 32 or 64 bytes;
0 for the absent kind). -/
def passwordLen : PasswordHashAlgorithm → Nat
  | .passwordNone => 0
  | .psha1 => 20
  | .psha256 => 32
  | .psha512 => 64

/-- The field-size contract of the specification for OCRA inputs: counter
exactly 8 bytes when included, challenge between the format minimum and 128
bytes, password exactly the declared digest length, session info at most 128
bytes, timestamp exactly 8 bytes when included. -/
def specOCRAInputOK (cfg : SuiteConfig) (inp : OCRAInput) : Prop :=
  (cfg.includeCounter = true → inp.counter.length = 8) ∧
  (cfg.includeChallenge = true →
    challengeLength cfg.challenge ≤ inp.challenge.length ∧
    inp.challenge.length ≤ 128) ∧
  (cfg.includePassword = true →
    inp.password.length = passwordLen cfg.passwordHash) ∧
  (cfg.includeSession = true → inp.sessionInfo.length ≤ 128) ∧
  (cfg.includeTimestamp = true → inp.timestamp.length = 8)

theorem shortDigit_length (otp d : Nat) : (shortDigit otp d).length = d := by
  induction d generalizing otp with
  | zero => rfl
  | succ n ih => simp [shortDigit, ih]

theorem longDigit_length (otp d : Nat) : (longDigit otp d).length = d := by
  induction d generalizing otp with
  | zero => rfl
  | succ n ih => simp [longDigit, ih]

theorem formatDecimal_length (v d : Nat) : (formatDecimal v d).length = d := by
  induction d generalizing v with
  | zero => rfl
  | succ n ih => simp [formatDecimal, ih]

theorem mod10Table_get (d : Nat) (h1 : 1 ≤ d) (h2 : d ≤ 10) :
    ∃ m, mod10Table.get? d = some m ∧ 0 < m := by
  interval_cases d <;> exact ⟨_, rfl, by norm_num⟩

theorem deriveRFC4226_ok (secret : List Nat) (c d : Nat) (algo : Algorithm)
    (h1 : 1 ≤ d) (h2 : d ≤ 10) :
    ∃ l, deriveRFC4226 secret c d algo = .ok l ∧ l.length = d := by
  obtain ⟨m, hm, hmpos⟩ := mod10Table_get d h1 h2
  obtain ⟨v, hv⟩ := truncate_pos (hmacSum algo secret (bytesBE 8 (w64 c))) m hmpos
  simp only [deriveRFC4226, hm, hv]
  by_cases h8 : d ≤ 8
  · exact ⟨_, by rw [if_pos h8], shortDigit_length _ _⟩
  · exact ⟨_, by rw [if_neg h8], longDigit_length _ _⟩

theorem validateOTP_of_ok (code secret : List Nat) (c d : Nat)
    (algo : Algorithm) (l : List Nat)
    (hl : deriveRFC4226 secret c d algo = .ok l) :
    validateOTP code secret c d algo =
      if code.length ≠ d then .err .invalidCodeLength
      else if code = l then .ok true else .err .invalidCode := by
  unfold validateOTP
  rw [hl]

theorem validateOTP_ok_iff (code secret : List Nat) (c d : Nat)
    (algo : Algorithm) (h1 : 1 ≤ d) (h2 : d ≤ 10) :
    (validateOTP code secret c d algo = .ok true) ↔
      deriveRFC4226 secret c d algo = .ok code := by
  obtain ⟨l, hl, hlen⟩ := deriveRFC4226_ok secret c d algo h1 h2
  rw [validateOTP_of_ok code secret c d algo l hl, hl]
  constructor
  · intro hx
    by_cases hcl : code.length ≠ d
    · rw [if_pos hcl] at hx; cases hx
    · rw [if_neg hcl] at hx
      by_cases hce : code = l
      · rw [hce]
      · rw [if_neg hce] at hx; cases hx
  · intro hx
    obtain rfl : l = code := GoResult.ok.inj hx
    rw [if_neg (by simp [hlen]), if_pos rfl]

theorem validateOTP_shape (code secret : List Nat) (c d : Nat)
    (algo : Algorithm) (h1 : 1 ≤ d) (h2 : d ≤ 10) :
    validateOTP code secret c d algo = .ok true ∨
      ∃ e, validateOTP code secret c d algo = .err e := by
  obtain ⟨l, hl, _⟩ := deriveRFC4226_ok secret c d algo h1 h2
  rw [validateOTP_of_ok code secret c d algo l hl]
  by_cases hcl : code.length ≠ d
  · right; exact ⟨_, if_pos hcl⟩
  · rw [if_neg hcl]
    by_cases hce : code = l
    · left; rw [if_pos hce]
    · right; exact ⟨_, if_neg hce⟩

theorem hotpScan_ok_iff (code secret : List Nat) (counter d : Nat)
    (algo : Algorithm) (h1 : 1 ≤ d) (h2 : d ≤ 10) (idxs : List Int) :
    hotpScan code secret counter d algo idxs = .ok true ↔
      ∃ i ∈ idxs, ∃ c, hotpCandidate counter i = some c ∧
        validateOTP code secret c d algo = .ok true := by
  induction idxs with
  | nil => simp [hotpScan]
  | cons i rest ih =>
    cases hcand : hotpCandidate counter i with
    | none =>
      have hstep : hotpScan code secret counter d algo (i :: rest) =
          hotpScan code secret counter d algo rest := by
        simp only [hotpScan, hcand]
      rw [hstep, ih]
      constructor
      · rintro ⟨j, hj, c, hc, hv⟩
        exact ⟨j, List.mem_cons_of_mem _ hj, c, hc, hv⟩
      · rintro ⟨j, hj, c, hc, hv⟩
        rcases List.mem_cons.mp hj with rfl | hj
        · rw [hcand] at hc; cases hc
        · exact ⟨j, hj, c, hc, hv⟩
    | some cc =>
      rcases validateOTP_shape code secret cc d algo h1 h2 with hv | ⟨e, hv⟩
      · refine iff_of_true ?_ ?_
        · simp only [hotpScan, hcand, hv]
        · exact ⟨i, List.mem_cons_self _ _, cc, hcand, hv⟩
      · have hstep : hotpScan code secret counter d algo (i :: rest) =
            hotpScan code secret counter d algo rest := by
          simp only [hotpScan, hcand, hv]
        rw [hstep, ih]
        constructor
        · rintro ⟨j, hj, c, hc, hvv⟩
          exact ⟨j, List.mem_cons_of_mem _ hj, c, hc, hvv⟩
        · rintro ⟨j, hj, c, hc, hvv⟩
          rcases List.mem_cons.mp hj with rfl | hj
          · rw [hcand] at hc
            obtain rfl : cc = c := Option.some.inj hc
            rw [hv] at hvv; cases hvv
          · exact ⟨j, hj, c, hc, hvv⟩

theorem mem_intRangeAux (n : Nat) (lo i : Int) :
    i ∈ intRangeAux lo n ↔ lo ≤ i ∧ i < lo + n := by
  induction n generalizing lo with
  | zero => simp [intRangeAux]
  | succ m ih =>
    simp only [intRangeAux, List.mem_cons, ih]
    constructor
    · rintro (rfl | ⟨h1, h2⟩)
      · omega
      · omega
    · rintro ⟨h1, h2⟩
      by_cases hi : i = lo
      · exact Or.inl hi
      · right; omega

theorem mem_intRangeIncl (lo hi i : Int) :
    i ∈ intRangeIncl lo hi ↔ lo ≤ i ∧ i ≤ hi := by
  rw [intRangeIncl, mem_intRangeAux]
  omega

/-- Inside a window that stays below 2^63, the candidate computation is
plain integer counter-plus-offset arithmetic, skipping exactly the
candidates below zero. -/
theorem hotpCandidate_window (counter k : Nat) (i : Int)
    (hc : counter + k < 9223372036854775808)
    (h1i : -(k : Int) ≤ i) (h2i : i ≤ (k : Int)) :
    hotpCandidate counter i =
      if (counter : Int) + i < 0 then none
      else some ((counter : Int) + i).toNat := by
  unfold hotpCandidate toInt64 w64
  have hlt : counter < 9223372036854775808 := by omega
  by_cases hi : i < 0
  · rw [if_pos hi, if_pos hlt]
    by_cases hskip : (counter : Int) < -i
    · rw [if_pos hskip, if_pos (by omega)]
    · rw [if_neg hskip, if_neg (by omega)]
      congr 1
      omega
  · rw [if_neg hi, if_neg (by omega)]
    congr 1
    omega

/-- The windowed acceptance condition of `ValidateHOTP` for parameters
within the skew bound and counters whose whole window stays below 2^63. -/
theorem validateHOTP_window_iff (secret code : List Nat) (counter : Nat)
    (p : Param) (hd1 : 1 ≤ p.digits) (hd2 : p.digits ≤ 10)
    (hk : p.skew ≤ 10) (hc : counter + p.skew < 9223372036854775808) :
    ValidateHOTP secret code counter (some p) = .ok true ↔
      ∃ i : Int, -(p.skew : Int) ≤ i ∧ i ≤ (p.skew : Int) ∧
        0 ≤ (counter : Int) + i ∧
        deriveRFC4226 secret ((counter : Int) + i).toNat p.digits
          p.algorithm = .ok code := by
  unfold ValidateHOTP
  simp only [Option.getD_some]
  rw [if_neg (by omega)]
  rw [hotpScan_ok_iff code secret counter p.digits p.algorithm hd1 hd2]
  constructor
  · rintro ⟨i, hmem, c, hcand, hval⟩
    rw [mem_intRangeIncl] at hmem
    rw [hotpCandidate_window counter p.skew i hc hmem.1 hmem.2] at hcand
    by_cases hneg : (counter : Int) + i < 0
    · rw [if_pos hneg] at hcand; cases hcand
    · rw [if_neg hneg] at hcand
      refine ⟨i, hmem.1, hmem.2, by omega, ?_⟩
      obtain rfl : ((counter : Int) + i).toNat = c := Option.some.inj hcand
      exact (validateOTP_ok_iff code secret _ p.digits p.algorithm hd1 hd2).mp
        hval
  · rintro ⟨i, h1i, h2i, h3i, hder⟩
    refine ⟨i, ?_, ((counter : Int) + i).toNat, ?_, ?_⟩
    · rw [mem_intRangeIncl]; exact ⟨h1i, h2i⟩
    · rw [hotpCandidate_window counter p.skew i hc h1i h2i, if_neg (by omega)]
    · exact (validateOTP_ok_iff code secret _ p.digits p.algorithm hd1
        hd2).mpr hder

/-- C3 (amended): for every secret, digit count between 1 and 10, algorithm,
skew at most 10, and counter whose window stays below 2^63, `ValidateHOTP`
accepts exactly when the submitted code is the code derived at some
candidate counter `counter + i` with `i` in the window, candidates below
zero being skipped. (At counters at or above 2^63 the signed
reinterpretation of the underflow guard skips every negative offset, and at
the top of the counter range positive offsets wrap around; see the
counterexample.) -/
theorem C3_window_correctness (secret code : List Nat) (counter : Nat)
    (p : Param) (hd1 : 1 ≤ p.digits) (hd2 : p.digits ≤ 10)
    (hk : p.skew ≤ 10) (hc : counter + p.skew < 2 ^ 63) :
    ValidateHOTP secret code counter (some p) = .ok true ↔
      ∃ i : Int, -(p.skew : Int) ≤ i ∧ i ≤ (p.skew : Int) ∧
        0 ≤ (counter : Int) + i ∧
        deriveRFC4226 secret ((counter : Int) + i).toNat p.digits
          p.algorithm = .ok code :=
  validateHOTP_window_iff secret code counter p hd1 hd2 hk (by norm_num at hc ⊢; exact hc)

/-- C3 witness: at counter 0, skew 0, the RFC 4226 code 755224 at counter 0
is accepted, through the window characterization. -/
theorem C3_window_correctness_witness :
    (1 ≤ (6 : Nat) ∧ (6 : Nat) ≤ 10 ∧ (0 : Nat) ≤ 10 ∧
      (0 : Nat) + 0 < 2 ^ 63) ∧
    (ValidateHOTP rfcKey20 [55, 53, 53, 50, 50, 52] 0
        (some ⟨6, 0, 0, .SHA1⟩) = .ok true ↔
      ∃ i : Int, -((0 : Nat) : Int) ≤ i ∧ i ≤ ((0 : Nat) : Int) ∧
        0 ≤ ((0 : Nat) : Int) + i ∧
        deriveRFC4226 rfcKey20 (((0 : Nat) : Int) + i).toNat 6 .SHA1 =
          .ok [55, 53, 53, 50, 50, 52]) :=
  ⟨⟨by norm_num, by norm_num, by norm_num, by norm_num⟩,
    C3_window_correctness rfcKey20 [55, 53, 53, 50, 50, 52] 0
      ⟨6, 0, 0, .SHA1⟩ (by norm_num) (by norm_num) (by norm_num)
      (by norm_num)⟩

/-- C10 (amended): a nil parameter falls back to the shared default (6
digits, SHA1, skew 2), so the correct code of any generation counter within
distance 2 of the supplied counter is accepted, provided the supplied
counter plus 2 stays below 2^63 (beyond that bound the signed
reinterpretation of the underflow guard skips the negative offsets; see the
counterexample). -/
theorem C10_default_skew_window :
    DefaultHOTPParam = ⟨6, 0, 2, .SHA1⟩ ∧
    ∀ (secret code : List Nat) (counter target : Nat),
      counter + 2 < 2 ^ 63 →
      (counter : Int) - 2 ≤ (target : Int) →
      (target : Int) ≤ (counter : Int) + 2 →
      deriveRFC4226 secret target 6 .SHA1 = .ok code →
      ValidateHOTP secret code counter none = .ok true := by
  refine ⟨rfl, ?_⟩
  intro secret code counter target hc hlo hhi hder
  have hnone : ValidateHOTP secret code counter none =
      ValidateHOTP secret code counter (some DefaultHOTPParam) := rfl
  rw [hnone]
  rw [validateHOTP_window_iff secret code counter DefaultHOTPParam
    (by norm_num [DefaultHOTPParam]) (by norm_num [DefaultHOTPParam])
    (by norm_num [DefaultHOTPParam])
    (by norm_num [DefaultHOTPParam] at hc ⊢; omega)]
  refine ⟨(target : Int) - (counter : Int), ?_, ?_, ?_, ?_⟩
  · simp [DefaultHOTPParam]; omega
  · simp [DefaultHOTPParam]; omega
  · omega
  · have : ((counter : Int) + ((target : Int) - (counter : Int))).toNat =
        target := by omega
    rw [this]
    simpa [DefaultHOTPParam] using hder

/-- C10 witness: with a nil parameter, the RFC 4226 code generated at
counter 3 is accepted at the supplied counter 5 (distance 2). -/
theorem C10_default_skew_window_witness :
    ((5 : Nat) + 2 < 2 ^ 63 ∧
      ((5 : Nat) : Int) - 2 ≤ ((3 : Nat) : Int) ∧
      ((3 : Nat) : Int) ≤ ((5 : Nat) : Int) + 2 ∧
      deriveRFC4226 rfcKey20 3 6 .SHA1 = .ok [57, 54, 57, 52, 50, 57]) ∧
    ValidateHOTP rfcKey20 [57, 54, 57, 52, 50, 57] 5 none = .ok true := by
  have hd : deriveRFC4226 rfcKey20 3 6 .SHA1 =
      .ok [57, 54, 57, 52, 50, 57] := by decide
  exact ⟨⟨by norm_num, by norm_num, by norm_num, hd⟩,
    C10_default_skew_window.2 rfcKey20 [57, 54, 57, 52, 50, 57] 5 3
      (by norm_num) (by norm_num) (by norm_num) hd⟩

theorem validateOTP_len (code secret : List Nat) (c d : Nat)
    (algo : Algorithm) (h : code.length ≠ d) :
    validateOTP code secret c d algo = .err .invalidCodeLength := by
  unfold validateOTP
  rw [if_pos h]

theorem validateOTPinstr_len (code secret : List Nat) (c d : Nat)
    (algo : Algorithm) (h : code.length ≠ d) :
    validateOTPinstr code secret c d algo = (.err .invalidCodeLength, 0) := by
  unfold validateOTPinstr
  rw [if_pos h]

theorem hotpScan_len (code secret : List Nat) (counter d : Nat)
    (algo : Algorithm) (h : code.length ≠ d) (idxs : List Int) :
    hotpScan code secret counter d algo idxs = .err .invalidCode := by
  induction idxs with
  | nil => rfl
  | cons i rest ih =>
    cases hcand : hotpCandidate counter i with
    | none => simp only [hotpScan, hcand]; exact ih
    | some c =>
      simp only [hotpScan, hcand, validateOTP_len code secret c d algo h]
      exact ih

theorem hotpScanInstr_len (code secret : List Nat) (counter d : Nat)
    (algo : Algorithm) (h : code.length ≠ d) (idxs : List Int) :
    hotpScanInstr code secret counter d algo idxs = (.err .invalidCode, 0) := by
  induction idxs with
  | nil => rfl
  | cons i rest ih =>
    cases hcand : hotpCandidate counter i with
    | none => simp only [hotpScanInstr, hcand]; exact ih
    | some c =>
      simp only [hotpScanInstr, hcand,
        validateOTPinstr_len code secret c d algo h, ih]

theorem totpScan_len (code secret : List Nat) (counter d : Nat)
    (algo : Algorithm) (h : code.length ≠ d) (idxs : List Int) :
    totpScan code secret counter d algo idxs = .err .invalidCode := by
  induction idxs with
  | nil => rfl
  | cons i rest ih =>
    simp only [totpScan, validateOTP_len _ secret _ d algo h]
    exact ih

theorem totpScanInstr_len (code secret : List Nat) (counter d : Nat)
    (algo : Algorithm) (h : code.length ≠ d) (idxs : List Int) :
    totpScanInstr code secret counter d algo idxs = (.err .invalidCode, 0) := by
  induction idxs with
  | nil => rfl
  | cons i rest ih =>
    simp only [totpScanInstr, validateOTPinstr_len _ secret _ d algo h, ih]

theorem validateTOTP_period_ne (p : Param) :
    (if p.period = 0 then 30 else p.period) ≠ 0 := by
  by_cases h : p.period = 0 <;> simp [h]

/-- C5 (amended): a submitted code whose length differs from the configured
digit count is rejected without any HMAC computation by all three
validators; `ValidateOCRA` surfaces the invalid-code-length error, while
`ValidateHOTP` and `ValidateTOTP` swallow the per-candidate length error in
the window loop and return the generic invalid-code error. -/
theorem C5_code_length_rejection :
    (∀ (secret code : List Nat) (counter : Nat) (p : Param),
      p.skew ≤ 10 → code.length ≠ p.digits →
      ValidateHOTP secret code counter (some p) = .err .invalidCode ∧
      ValidateHOTPinstr secret code counter (some p) =
        (.err .invalidCode, 0)) ∧
    (∀ (secret code : List Nat) (t : Int) (p : Param),
      code.length ≠ p.digits →
      ValidateTOTP secret code t (some p) = .err .invalidCode ∧
      ValidateTOTPinstr secret code t (some p) = (.err .invalidCode, 0)) ∧
    (∀ (secret code : List Nat) (cfg : SuiteConfig) (inp : OCRAInput),
      code.length ≠ cfg.digits →
      ValidateOCRA secret code cfg inp = .err .invalidCodeLength ∧
      ValidateOCRAinstr secret code cfg inp =
        (.err .invalidCodeLength, 0)) := by
  refine ⟨?_, ?_, ?_⟩
  · intro secret code counter p hk hlen
    constructor
    · unfold ValidateHOTP
      simp only [Option.getD_some]
      rw [if_neg (by omega)]
      exact hotpScan_len code secret counter p.digits p.algorithm hlen _
    · unfold ValidateHOTPinstr
      simp only [Option.getD_some]
      rw [if_neg (by omega)]
      exact hotpScanInstr_len code secret counter p.digits p.algorithm hlen _
  · intro secret code t p hlen
    have hpr := validateTOTP_period_ne p
    constructor
    · unfold ValidateTOTP
      simp only [Option.getD_some, timeCounterFunc, if_neg hpr]
      exact totpScan_len code secret _ p.digits p.algorithm hlen _
    · unfold ValidateTOTPinstr
      simp only [Option.getD_some, timeCounterFunc, if_neg hpr]
      exact totpScanInstr_len code secret _ p.digits p.algorithm hlen _
  · intro secret code cfg inp hlen
    constructor
    · unfold ValidateOCRA validateRFC6287 validate
      rw [if_pos hlen]
    · unfold ValidateOCRAinstr
      rw [if_pos hlen]

/-- C5 witness: a one-byte code against six configured digits. -/
theorem C5_code_length_rejection_witness :
    ((0 : Nat) ≤ 10 ∧ ([49] : List Nat).length ≠ (6 : Nat)) ∧
    ValidateHOTP rfcKey20 [49] 0 (some ⟨6, 0, 0, .SHA1⟩) =
      .err .invalidCode :=
  ⟨⟨by norm_num, by norm_num⟩,
    (C5_code_length_rejection.1 rfcKey20 [49] 0 ⟨6, 0, 0, .SHA1⟩
      (by norm_num) (by norm_num)).1⟩

theorem totpScan_ne_invalidSkew (code secret : List Nat) (counter d : Nat)
    (algo : Algorithm) (idxs : List Int) :
    totpScan code secret counter d algo idxs ≠ .err .invalidSkew := by
  induction idxs with
  | nil => simp [totpScan]
  | cons i rest ih =>
    cases hval : validateOTP code secret
        (((counter : Int) + i) % 18446744073709551616).toNat d algo with
    | ok val =>
      cases val with
      | true => simp [totpScan, hval]
      | false => simp only [totpScan, hval]; exact ih
    | err e => simp only [totpScan, hval]; exact ih
    | panic => simp [totpScan, hval]

/-- C6 (amended): only `ValidateHOTP` enforces the skew bound, rejecting a
skew above 10 up front with the invalid-skew error before any HMAC
computation; `ValidateTOTP` performs no such check and can never return the
invalid-skew error. -/
theorem C6_skew_guard :
    (∀ (secret code : List Nat) (counter : Nat) (p : Param), p.skew > 10 →
      ValidateHOTP secret code counter (some p) = .err .invalidSkew ∧
      ValidateHOTPinstr secret code counter (some p) =
        (.err .invalidSkew, 0)) ∧
    (∀ (secret code : List Nat) (t : Int) (param : Option Param),
      ValidateTOTP secret code t param ≠ .err .invalidSkew) := by
  constructor
  · intro secret code counter p hk
    constructor
    · unfold ValidateHOTP
      simp only [Option.getD_some]
      rw [if_pos hk]
    · unfold ValidateHOTPinstr
      simp only [Option.getD_some]
      rw [if_pos hk]
  · intro secret code t param
    unfold ValidateTOTP
    have hpr := validateTOTP_period_ne (param.getD DefaultTOTPParam)
    simp only [timeCounterFunc, if_neg hpr]
    exact totpScan_ne_invalidSkew code secret _ _ _ _

/-- C6 witness: skew 11 is rejected by `ValidateHOTP` with the invalid-skew
error and no HMAC computation. -/
theorem C6_skew_guard_witness :
    ((⟨6, 0, 11, .SHA1⟩ : Param).skew > 10) ∧
    ValidateHOTP rfcKey20 [49, 50, 51, 52, 53, 54] 0
        (some ⟨6, 0, 11, .SHA1⟩) = .err .invalidSkew ∧
    ValidateHOTPinstr rfcKey20 [49, 50, 51, 52, 53, 54] 0
        (some ⟨6, 0, 11, .SHA1⟩) = (.err .invalidSkew, 0) :=
  ⟨by norm_num,
    (C6_skew_guard.1 rfcKey20 [49, 50, 51, 52, 53, 54] 0
      ⟨6, 0, 11, .SHA1⟩ (by norm_num)).1,
    (C6_skew_guard.1 rfcKey20 [49, 50, 51, 52, 53, 54] 0
      ⟨6, 0, 11, .SHA1⟩ (by norm_num)).2⟩

theorem suiteValidate_none (cfg : SuiteConfig)
    (hv : suiteValidate cfg = none) :
    (4 ≤ cfg.digits ∧ cfg.digits ≤ 10) ∧
    (cfg.includePassword = true → cfg.passwordHash ≠ .passwordNone) ∧
    (cfg.includeTimestamp = true → 0 < cfg.timeStep) ∧
    (cfg.includeChallenge = true → cfg.challenge ≠ .challengeNone) := by
  unfold suiteValidate at hv
  split_ifs at hv with h1 h2 h3 h4
  refine ⟨by omega, ?_, ?_, ?_⟩
  · intro hp hk; exact h2 ⟨hp, hk⟩
  · intro ht; by_contra hts; exact h3 ⟨ht, by omega⟩
  · intro hch hc; exact h4 ⟨hch, hc⟩

theorem passwordLen_pos (k : PasswordHashAlgorithm)
    (hk : k ≠ .passwordNone) : 0 < passwordLen k := by
  cases k with
  | passwordNone => exact absurd rfl hk
  | psha1 => norm_num [passwordLen]
  | psha256 => norm_num [passwordLen]
  | psha512 => norm_num [passwordLen]

theorem inputValidate_none_iff (cfg : SuiteConfig) (inp : OCRAInput)
    (hpw : cfg.includePassword = true → cfg.passwordHash ≠ .passwordNone) :
    inputValidate inp cfg = none ↔ specOCRAInputOK cfg inp := by
  unfold inputValidate
  split_ifs with h1 h2 h3 h4 h5 h6 h7 h8 h9
  · exact iff_of_false (by simp)
      (fun hs => h1.2 (hs.1 h1.1))
  · exact iff_of_false (by simp)
      (fun hs => absurd (hs.2.1 h2.1).1 (by omega))
  · exact iff_of_false (by simp)
      (fun hs => absurd (hs.2.1 h3.1).2 (by omega))
  · refine iff_of_false (by simp) (fun hs => ?_)
    have hlen := hs.2.2.1 h4.1
    have := passwordLen_pos cfg.passwordHash (hpw h4.1)
    omega
  · refine iff_of_false (by simp) (fun hs => ?_)
    have hlen := hs.2.2.1 h5.1
    rw [h5.2.1] at hlen
    exact h5.2.2 hlen
  · refine iff_of_false (by simp) (fun hs => ?_)
    have hlen := hs.2.2.1 h6.1
    rw [h6.2.1] at hlen
    exact h6.2.2 hlen
  · refine iff_of_false (by simp) (fun hs => ?_)
    have hlen := hs.2.2.1 h7.1
    rw [h7.2.1] at hlen
    exact h7.2.2 hlen
  · exact iff_of_false (by simp)
      (fun hs => absurd (hs.2.2.2.1 h8.1) (by omega))
  · exact iff_of_false (by simp)
      (fun hs => h9.2 (hs.2.2.2.2 h9.1))
  · refine iff_of_true rfl ⟨?_, ?_, ?_, ?_, ?_⟩
    · intro hC; by_contra hne; exact h1 ⟨hC, hne⟩
    · intro hCh
      constructor
      · by_contra hlt; exact h2 ⟨hCh, by omega⟩
      · by_contra hgt; exact h3 ⟨hCh, by omega⟩
    · intro hP
      have hk := hpw hP
      cases hkind : cfg.passwordHash with
      | passwordNone => exact absurd hkind hk
      | psha1 =>
        rw [passwordLen]
        by_contra hne; exact h5 ⟨hP, hkind, hne⟩
      | psha256 =>
        rw [passwordLen]
        by_contra hne; exact h6 ⟨hP, hkind, hne⟩
      | psha512 =>
        rw [passwordLen]
        by_contra hne; exact h7 ⟨hP, hkind, hne⟩
    · intro hS; by_contra hgt; exact h8 ⟨hS, by omega⟩
    · intro hT; by_contra hne; exact h9 ⟨hT, hne⟩

theorem deriveRFC6287_ok_of (secret : List Nat) (cfg : SuiteConfig)
    (inp : OCRAInput) (hv : suiteValidate cfg = none)
    (hi : inputValidate inp cfg = none) :
    ∃ l, deriveRFC6287 secret cfg inp = .ok l ∧ l.length = cfg.digits := by
  obtain ⟨⟨hd1, hd2⟩, -, -, -⟩ := suiteValidate_none cfg hv
  obtain ⟨m, hm, hmpos⟩ := mod10Table_get cfg.digits (by omega) hd2
  obtain ⟨v, hvv⟩ := truncate_pos
    (hmacSum cfg.hash secret (ocraMessage cfg inp)) m hmpos
  refine ⟨formatDecimal v cfg.digits, ?_, formatDecimal_length v cfg.digits⟩
  simp only [deriveRFC6287, hv, hi, hm, hvv]

theorem deriveRFC6287_err_of (secret : List Nat) (cfg : SuiteConfig)
    (inp : OCRAInput) (e : Err) (hv : suiteValidate cfg = none)
    (hi : inputValidate inp cfg = some e) :
    deriveRFC6287 secret cfg inp = .err e := by
  simp only [deriveRFC6287, hv, hi]

/-- C9: when the suite configuration is valid, OCRA derivation fails exactly
when a caller-supplied input field violates its size contract (counter 8
bytes, challenge between the format minimum and 128 bytes, password exactly
the declared 20/32/64 bytes, session at most 128 bytes, timestamp 8 bytes),
the failure carries the field-specific error of the input validator, and every
such error names the violated field together with its actual length — no
field is silently coerced. -/
theorem C9_input_validation (secret : List Nat) (cfg : SuiteConfig)
    (inp : OCRAInput) (hv : suiteValidate cfg = none) :
    (inputValidate inp cfg = none ↔ specOCRAInputOK cfg inp) ∧
    ((∃ l, deriveRFC6287 secret cfg inp = .ok l) ↔ specOCRAInputOK cfg inp) ∧
    (∀ e, deriveRFC6287 secret cfg inp = .err e →
      inputValidate inp cfg = some e) ∧
    (∀ e, inputValidate inp cfg = some e →
      (cfg.includeCounter = true ∧ inp.counter.length ≠ 8 ∧
        e = .inputCounterLen inp.counter.length) ∨
      (cfg.includeChallenge = true ∧
        inp.challenge.length < challengeLength cfg.challenge ∧
        e = .inputChallengeShort (challengeLength cfg.challenge)
          inp.challenge.length) ∨
      (cfg.includeChallenge = true ∧ inp.challenge.length > 128 ∧
        e = .inputChallengeLong inp.challenge.length) ∨
      (cfg.includePassword = true ∧ inp.password.length = 0 ∧
        e = .inputPasswordMissing) ∨
      (cfg.includePassword = true ∧
        inp.password.length ≠ passwordLen cfg.passwordHash ∧
        e = .inputPasswordLen (passwordLen cfg.passwordHash)
          inp.password.length) ∨
      (cfg.includeSession = true ∧ inp.sessionInfo.length > 128 ∧
        e = .inputSessionLong inp.sessionInfo.length) ∨
      (cfg.includeTimestamp = true ∧ inp.timestamp.length ≠ 8 ∧
        e = .inputTimestampLen inp.timestamp.length)) := by
  obtain ⟨hdig, hpw, hts, hch⟩ := suiteValidate_none cfg hv
  have hiff := inputValidate_none_iff cfg inp hpw
  refine ⟨hiff, ?_, ?_, ?_⟩
  · constructor
    · rintro ⟨l, hl⟩
      cases hi : inputValidate inp cfg with
      | none => exact hiff.mp hi
      | some e =>
        rw [deriveRFC6287_err_of secret cfg inp e hv hi] at hl
        cases hl
    · intro hs
      obtain ⟨l, hl, -⟩ :=
        deriveRFC6287_ok_of secret cfg inp hv (hiff.mpr hs)
      exact ⟨l, hl⟩
  · intro e he
    cases hi : inputValidate inp cfg with
    | none =>
      obtain ⟨l, hl, -⟩ := deriveRFC6287_ok_of secret cfg inp hv hi
      rw [hl] at he
      cases he
    | some e2 =>
      rw [deriveRFC6287_err_of secret cfg inp e2 hv hi] at he
      rw [GoResult.err.inj he]
  · intro e he
    unfold inputValidate at he
    split_ifs at he with h1 h2 h3 h4 h5 h6 h7 h8 h9
    · exact Or.inl ⟨h1.1, h1.2, (Option.some.inj he).symm⟩
    · exact Or.inr (Or.inl ⟨h2.1, h2.2, (Option.some.inj he).symm⟩)
    · exact Or.inr (Or.inr (Or.inl ⟨h3.1, h3.2, (Option.some.inj he).symm⟩))
    · exact Or.inr (Or.inr (Or.inr (Or.inl
        ⟨h4.1, h4.2, (Option.some.inj he).symm⟩)))
    · refine Or.inr (Or.inr (Or.inr (Or.inr (Or.inl
        ⟨h5.1, ?_, ?_⟩))))
      · rw [h5.2.1, passwordLen]; exact h5.2.2
      · rw [← Option.some.inj he, h5.2.1, passwordLen]
    · refine Or.inr (Or.inr (Or.inr (Or.inr (Or.inl
        ⟨h6.1, ?_, ?_⟩))))
      · rw [h6.2.1, passwordLen]; exact h6.2.2
      · rw [← Option.some.inj he, h6.2.1, passwordLen]
    · refine Or.inr (Or.inr (Or.inr (Or.inr (Or.inl
        ⟨h7.1, ?_, ?_⟩))))
      · rw [h7.2.1, passwordLen]; exact h7.2.2
      · rw [← Option.some.inj he, h7.2.1, passwordLen]
    · exact Or.inr (Or.inr (Or.inr (Or.inr (Or.inr (Or.inl
        ⟨h8.1, h8.2, (Option.some.inj he).symm⟩)))))
    · exact Or.inr (Or.inr (Or.inr (Or.inr (Or.inr (Or.inr
        ⟨h9.1, h9.2, (Option.some.inj he).symm⟩)))))

/-- C9 witness: for the numeric-challenge suite, a 3-byte challenge is too
short, and the derivation error names the challenge field with the format
minimum and the actual length. -/
theorem C9_input_validation_witness :
    suiteValidate cfgQN08 = none ∧
    (inputValidate { emptyOCRAInput with challenge := [48, 48, 48] } cfgQN08 =
        none ↔
      specOCRAInputOK cfgQN08
        { emptyOCRAInput with challenge := [48, 48, 48] }) :=
  ⟨by decide,
    (C9_input_validation rfcKey20 cfgQN08
      { emptyOCRAInput with challenge := [48, 48, 48] } (by decide)).1⟩

/-- C1: the dynamic-truncation modulus actually applied by HOTP/TOTP
derivation is `mod10[digits]`; for digit counts 4 to 9 this is 10^digits,
but the table entry for 10 digits repeats 10^9 instead of 10^10, so for
`d = 10` the truncation result is the extracted 31-bit value modulo 10^9.
At the RFC 4226 key and counter 0 the extracted value is 1284755224, and the
10-digit code comes out as 0284755224 instead of 1284755224. -/
theorem C1_mod10_truncation_bug :
    mod10Table.get? 10 = some 1000000000 ∧
    1000000000 ≠ 10 ^ 10 ∧
    ([4, 5, 6, 7, 8, 9].all fun d => mod10Table.getD d 0 = 10 ^ d) = true ∧
    hmacSum .SHA1 rfcKey20 (bytesBE 8 0) =
      [204, 147, 207, 24, 80, 141, 148, 147, 76, 100,
       182, 93, 139, 167, 102, 127, 183, 205, 228, 176] ∧
    truncate
      [204, 147, 207, 24, 80, 141, 148, 147, 76, 100,
       182, 93, 139, 167, 102, 127, 183, 205, 228, 176] 1000000000 =
      some 284755224 ∧
    truncate
      [204, 147, 207, 24, 80, 141, 148, 147, 76, 100,
       182, 93, 139, 167, 102, 127, 183, 205, 228, 176] (10 ^ 10) =
      some 1284755224 ∧
    deriveRFC4226 rfcKey20 0 10 .SHA1 =
      .ok [48, 50, 56, 52, 55, 53, 53, 50, 50, 52] := by
  decide

/-- C2: HOTP derivation with the 20-byte ASCII key 12345678901234567890,
SHA1 and 6 digits yields exactly the RFC 4226 appendix codes at counters 0
through 9, in order. -/
theorem C2_rfc4226_vectors :
    (List.range 10).map (fun c => deriveRFC4226 rfcKey20 c 6 .SHA1) =
      [.ok [55, 53, 53, 50, 50, 52], .ok [50, 56, 55, 48, 56, 50],
       .ok [51, 53, 57, 49, 53, 50], .ok [57, 54, 57, 52, 50, 57],
       .ok [51, 51, 56, 51, 49, 52], .ok [50, 53, 52, 54, 55, 54],
       .ok [50, 56, 55, 57, 50, 50], .ok [49, 54, 50, 53, 56, 51],
       .ok [51, 57, 57, 56, 55, 49], .ok [53, 50, 48, 52, 56, 57]] := by
  decide

/-- C4: for the suite of SHA1 with 6 digits and an 8-digit numeric
challenge, the 20-byte RFC key, and the decimal challenge 00000000 (whose
RFC 6287 encoding is 128 zero bytes), OCRA derivation returns exactly the
code 237653 (ASCII bytes 50, 51, 55, 54, 53, 51). -/
theorem C4_ocra_vector :
    ParseDecimalChallengeRFC6287 "00000000".data =
      some (List.replicate 128 0) ∧
    cfgQN08.raw = "OCRA-1:HOTP-SHA1-6:QN08".data ∧
    deriveRFC6287 rfcKey20 cfgQN08
        { emptyOCRAInput with challenge := List.replicate 128 0 } =
      .ok [50, 51, 55, 54, 53, 51] := by
  decide

/-- C7: contrary to the no-fatal-abort policy, degenerate parameter values
panic: 0 digits divides by zero (`mod10[0] = 0`), 11 digits indexes the
modulus table out of range, a zero period in `GenerateTOTP` divides by zero
in the time-counter mapping, and `ValidateTOTP` propagates the digit panic
when the submitted code has the configured length. -/
theorem C7_panic_on_degenerate_param :
    GenerateHOTP rfcKey20 0 (some ⟨0, 0, 0, .SHA1⟩) = .panic ∧
    GenerateHOTP rfcKey20 0 (some ⟨11, 0, 0, .SHA1⟩) = .panic ∧
    GenerateTOTP rfcKey20 59 (some ⟨8, 0, 0, .SHA1⟩) = .panic ∧
    ValidateTOTP rfcKey20 [] 59 (some ⟨0, 30, 0, .SHA1⟩) = .panic := by
  decide

/-- C3 counterexample: at the supplied counter 2^63 with skew 1, the code
generated at counter 2^63 - 1 (a candidate within the window that does not
underflow below zero) is rejected, because the underflow guard reinterprets
the counter as a signed 64-bit value and skips every negative offset. -/
theorem C3_counterexample :
    deriveRFC4226 rfcKey20 (2 ^ 63 - 1) 6 .SHA1 =
      .ok [49, 56, 49, 55, 52, 50] ∧
    (0 : Int) ≤ 2 ^ 63 - 1 ∧
    ValidateHOTP rfcKey20 [49, 56, 49, 55, 52, 50] (2 ^ 63)
        (some ⟨6, 0, 1, .SHA1⟩) = .err .invalidCode := by
  decide

/-- C5 counterexample: a 5-character code against 6 configured digits makes
`ValidateHOTP` fail with the generic invalid-code error, not with the
invalid-code-length error (the per-candidate length error is swallowed by
the window loop). -/
theorem C5_counterexample :
    ValidateHOTP rfcKey20 [49, 50, 51, 52, 53] 0 (some ⟨6, 0, 0, .SHA1⟩) =
      .err .invalidCode ∧
    Err.invalidCode ≠ Err.invalidCodeLength := by
  decide

/-- C6 counterexample: `ValidateTOTP` with skew 11 does not reject with the
invalid-skew error; it searches the window and accepts a matching code
(time 59, period 30, time-step counter 1, RFC key; the code is the one the
wrapped candidate of offset -11 derives, so the very first window position
accepts). -/
theorem C6_counterexample :
    ValidateTOTP rfcKey20 [52, 53, 57, 50, 56, 53] 59
        (some ⟨6, 30, 11, .SHA1⟩) = .ok true ∧
    (GoResult.ok true : GoResult Bool) ≠ .err .invalidSkew := by
  decide

/-- C10 counterexample: with a nil parameter (default skew 2), the code
generated at counter 2^63 - 1 is rejected at the supplied counter 2^63, even
though it is within distance 2, because the signed reinterpretation of the
counter skips every negative offset. -/
theorem C10_counterexample :
    deriveRFC4226 rfcKey20 (2 ^ 63 - 1) 6 .SHA1 =
      .ok [49, 56, 49, 55, 52, 50] ∧
    ValidateHOTP rfcKey20 [49, 56, 49, 55, 52, 50] (2 ^ 63) none =
      .err .invalidCode := by
  decide

/-- Sanity check of the hash layer: the SHA-256 digest of the empty
message matches the published value. -/
theorem sha256_empty_digest : sha256 [] =
    [227, 176, 196, 66, 152, 252, 28, 20, 154, 251, 244, 200, 153, 111, 185,
     36, 39, 174, 65, 228, 100, 155, 147, 76, 164, 149, 153, 27, 120, 82,
     184, 85] := by decide

/-- Sanity check of the hash layer: the SHA-512 digest of the three-byte
message abc matches the published value. -/
theorem sha512_abc_digest : sha512 [97, 98, 99] =
    [0xdd, 0xaf, 0x35, 0xa1, 0x93, 0x61, 0x7a, 0xba, 0xcc, 0x41, 0x73, 0x49,
     0xae, 0x20, 0x41, 0x31, 0x12, 0xe6, 0xfa, 0x4e, 0x89, 0xa9, 0x7e, 0xa2,
     0x0a, 0x9e, 0xee, 0xe6, 0x4b, 0x55, 0xd3, 0x9a, 0x21, 0x92, 0x99, 0x2a,
     0x27, 0x4f, 0xc1, 0xa8, 0x36, 0xba, 0x3c, 0x23, 0xa3, 0xfe, 0xeb, 0xbd,
     0x45, 0x4d, 0x44, 0x23, 0x64, 0x3c, 0xe8, 0x0e, 0x2a, 0x9a, 0xc9, 0x4f,
     0xa5, 0x4c, 0xa4, 0x9f] := by decide
